import Mathlib

/-!
Shallow embedding of the USDebtLive auto-tweet script (`main.py`).

Calendar dates are modelled as integers (a number of days, so that the
`timedelta` arithmetic of the script becomes integer arithmetic), currency
amounts as rational numbers, and the remote FiscalData service as a list of
rows held by the environment.  Every function of the script that performs
network I/O is embedded as a function of an explicit environment and also
returns the list of network calls it issued, in order.
-/

namespace USDebtLive

/-- A row of the Debt to the Penny dataset: the record date and the total
public debt outstanding amount (a `float` in the script, modelled as a
rational number). -/
structure DebtRow where
  record_date : Int
  tot_pub_debt_out_amt : Rat
deriving DecidableEq

/-- One network call issued by the script: the GET for the latest record, a
GET with a `record_date:lte:target` filter, or the POST publishing a tweet. -/
inductive NetCall where
  | getLatest : NetCall
  | getLte (target : Int) : NetCall
  | postTweet (text : String) : NetCall
deriving DecidableEq

/-- The ambient world a run executes in: the current calendar date, the
dataset held by the FiscalData server, which network calls fail at the
transport or HTTP-status level, the process environment variables, and the
response body a successful POST answers with. -/
structure Env where
  today : Int
  db : List DebtRow
  netFail : NetCall → Bool
  vars : String → Option String
  postResp : String

/-- How old the latest record is allowed to be before the script refuses to
tweet. -/
def MAX_STALE_DAYS : Int := 3

/-- Insertion of a row into a list sorted by descending `record_date`. -/
def insertDesc (r : DebtRow) : List DebtRow → List DebtRow
  | [] => [r]
  | x :: xs =>
    if x.record_date ≤ r.record_date then r :: x :: xs else x :: insertDesc r xs

/-- Rows sorted by descending `record_date` (the `sort=-record_date` query
option of the API). -/
def sortDesc : List DebtRow → List DebtRow
  | [] => []
  | x :: xs => insertDesc x (sortDesc xs)

/-- Whether a row passes the optional `record_date:lte:target` filter. -/
def rowMatches (filt : Option Int) (r : DebtRow) : Bool :=
  match filt with
  | none => true
  | some t => r.record_date ≤ t

/-- Server model for the queries the script issues: the rows passing the
filter, sorted by descending record date, first page of size one. -/
def apiData (db : List DebtRow) (filt : Option Int) : List DebtRow :=
  (sortDesc (db.filter (rowMatches filt))).take 1

/-- GET against the FiscalData endpoint with standard options; raises
(`Except.error`) on a non-200 response or an empty `data` array. -/
def _request (env : Env) (call : NetCall) (filt : Option Int) : Except String DebtRow :=
  if env.netFail call then Except.error "HTTPError"
  else
    match apiData env.db filt with
    | [] => Except.error "No data returned for params"
    | row :: _ => Except.ok row

/-- The most recent available record by `record_date`, paired with the
network call issued to obtain it. -/
def fetch_latest_debt_row (env : Env) : Except String DebtRow × List NetCall :=
  (_request env NetCall.getLatest none, [NetCall.getLatest])

/-- The latest record with `record_date` at most the target date, paired
with the network call issued to obtain it. -/
def fetch_debt_on_or_before (env : Env) (target : Int) : Except String DebtRow × List NetCall :=
  (_request env (NetCall.getLte target) (some target), [NetCall.getLte target])

/-- Numeric amount and record date of an API row. -/
def parse_debt (row : DebtRow) : Rat × Int :=
  (row.tot_pub_debt_out_amt, row.record_date)

/-- Scale an amount to billions. -/
def billions (x : Rat) : Rat := x / 1000000000

/-- Round to the nearest integer, ties to the even integer (the rounding
Python applies when formatting a value with two decimal places). -/
def roundHalfEven (q : Rat) : Int :=
  if q - q.floor < 1 / 2 then q.floor
  else if 1 / 2 < q - q.floor then q.floor + 1
  else if q.floor % 2 = 0 then q.floor else q.floor + 1

/-- Decimal digits of a natural number, least significant first. -/
def natDigitsRev (n : Nat) : List Char :=
  if h : n < 10 then [Nat.digitChar n]
  else Nat.digitChar (n % 10) :: natDigitsRev (n / 10)
termination_by n
decreasing_by exact Nat.div_lt_self (by omega) (by omega)

/-- Insert a thousands separator after every third digit, the digit list
being least significant first. -/
def groupRev : List Char → List Char
  | [] => []
  | [a] => [a]
  | [a, b] => [a, b]
  | [a, b, c] => [a, b, c]
  | a :: b :: c :: d :: rest => a :: b :: c :: ',' :: groupRev (d :: rest)

/-- Decimal rendering of a natural number with thousands separators, as the
`,` option of a Python format spec produces. -/
def formatComma (n : Nat) : String :=
  String.mk ((groupRev (natDigitsRev n)).reverse)

/-- Two-digit rendering of a value below one hundred (the two decimal
places of a `.2f` format spec). -/
def pad2 (m : Nat) : String :=
  if m < 10 then String.mk ['0', Nat.digitChar m]
  else String.mk [Nat.digitChar (m / 10), Nat.digitChar (m % 10)]

/-- Python `,.2f` formatting of a rational value: sign, integer part with
thousands separators, a point, and exactly two decimal places. -/
def format2 (q : Rat) : String :=
  (if q < 0 then "-" else "") ++
    formatComma ((roundHalfEven (q * 100)).natAbs / 100) ++ "." ++
    pad2 ((roundHalfEven (q * 100)).natAbs % 100)

/-- Signed, billions-scaled rendering of a delta. -/
def format_billions (delta : Rat) : String :=
  (if delta ≥ 0 then "+" else "-") ++ "$" ++ format2 (abs (billions delta)) ++ " B"

/-- Literal pieces of the tweet template, verbatim from the script. -/
def litHeader : String := "ðŸ‡ºðŸ‡¸ U.S. Debt Update\n\n"

def litToday : String := "ðŸ’° Today: $"

def litYday : String := "ðŸ“… Yesterday: $"

def litWeek : String := "ðŸ—“ï¸ 1 Week Ago: $"

def litDaily : String := "ðŸ“ˆ Daily Increase: "

def litWkly : String := "ðŸ“† Weekly Increase: "

def litTags : String := "#USDebt #DebtCrisis #FiscalReality"

/-- The tweet template, with the three amounts and the two deltas filled
in. -/
def tweetText (today_debt y_debt w_debt daily_inc weekly_inc : Rat) : String :=
  litHeader ++
    (litToday ++ format2 today_debt ++ "\n") ++
    (litYday ++ format2 y_debt ++ "\n") ++
    (litWeek ++ format2 w_debt ++ "\n\n") ++
    (litDaily ++ format_billions daily_inc ++ "\n") ++
    (litWkly ++ format_billions weekly_inc ++ "\n\n") ++
    litTags

/-- Build the final tweet text, with the stale-data safeguard: fetch the
latest record, refuse if it is too old, fetch the records on or before one
day and seven days before the latest record date, compute the increases
and fill the template. -/
def build_tweet_text (env : Env) : Except String String × List NetCall :=
  match fetch_latest_debt_row env with
  | (Except.error e, t1) => (Except.error e, t1)
  | (Except.ok latest_row, t1) =>
    let today_debt := (parse_debt latest_row).1
    let today_record_date := (parse_debt latest_row).2
    let days_old := env.today - today_record_date
    if days_old > MAX_STALE_DAYS then
      (Except.error ("Latest debt data is stale: " ++ toString today_record_date ++
        " (" ++ toString days_old ++ " days old, max allowed " ++
        toString MAX_STALE_DAYS ++ ")."), t1)
    else
      match fetch_debt_on_or_before env (today_record_date - 1) with
      | (Except.error e, t2) => (Except.error e, t1 ++ t2)
      | (Except.ok y_row, t2) =>
        match fetch_debt_on_or_before env (today_record_date - 7) with
        | (Except.error e, t3) => (Except.error e, t1 ++ t2 ++ t3)
        | (Except.ok w_row, t3) =>
          (Except.ok (tweetText today_debt (parse_debt y_row).1 (parse_debt w_row).1
            (today_debt - (parse_debt y_row).1) (today_debt - (parse_debt w_row).1)),
            t1 ++ t2 ++ t3)

/-- Python truthiness of an optional environment variable: an unset
variable (`None`) and the empty string are falsy. -/
def truthy : Option String → Bool
  | none => false
  | some s => !s.isEmpty

/-- `all` of the four OAuth credentials drawn from the environment. -/
def credsPresent (env : Env) : Bool :=
  truthy (env.vars "X_API_KEY") && truthy (env.vars "X_API_SECRET") &&
    truthy (env.vars "X_ACCESS_TOKEN") && truthy (env.vars "X_ACCESS_TOKEN_SECRET")

/-- Post a tweet via the X API: abort when a credential is missing, raise
on a failed request or a non-success status, otherwise return the response
body.  The second component is the list of POST calls actually issued. -/
def post_to_x (env : Env) (text : String) : Except String String × List NetCall :=
  if !credsPresent env then
    (Except.error "Missing one or more X OAuth 1.0a credentials.", [])
  else if env.netFail (NetCall.postTweet text) then
    (Except.error "Failed to post tweet.", [NetCall.postTweet text])
  else
    (Except.ok env.postResp, [NetCall.postTweet text])

/-- Observable outcome of one run of `main`: the exit code of the process,
the lines printed to stdout and to stderr, the network calls issued, in
order, and whether control reached the call to `post_to_x`. -/
structure RunResult where
  exitCode : Nat
  stdout : List String
  stderr : List String
  calls : List NetCall
  invokedPost : Bool
deriving DecidableEq

/-- The three preview lines `main` prints once the tweet has been built. -/
def previewLines (tweet : String) : List String :=
  ["=== Generated Tweet Preview ===", tweet, "================================"]

/-- The dry-run notice printed instead of posting. -/
def dryRunMsg : String := "[INFO] DRY_RUN=1 â†’ not posting to X."

/-- The entrypoint: build the tweet (exit 1 on failure), print the preview,
then either skip posting when `DRY_RUN` is `1` or post (exit 1 on
failure). -/
def main (env : Env) : RunResult :=
  match build_tweet_text env with
  | (Except.error e, calls) =>
    ⟨1, [], ["[ERROR] Failed to build tweet: " ++ e], calls, false⟩
  | (Except.ok tweet, calls) =>
    if (env.vars "DRY_RUN").getD "0" = "1" then
      ⟨0, previewLines tweet ++ [dryRunMsg], [], calls, false⟩
    else
      match post_to_x env tweet with
      | (Except.error e, pcalls) =>
        ⟨1, previewLines tweet, ["[ERROR] Failed to post tweet: " ++ e],
          calls ++ pcalls, true⟩
      | (Except.ok resp, pcalls) =>
        ⟨0, previewLines tweet ++ ["[INFO] Tweet posted successfully.", resp], [],
          calls ++ pcalls, true⟩

/-- An environment mapping with no variable set. -/
def varsNone : String → Option String := fun _ => none

/-- An environment mapping with only `DRY_RUN=1` set. -/
def varsDry : String → Option String :=
  fun k => if k = "DRY_RUN" then some "1" else none

/-- An environment mapping with the four credentials set and `DRY_RUN`
unset. -/
def varsCreds : String → Option String :=
  fun k => if k = "DRY_RUN" then none else some "secret"

/-- No network call fails. -/
def noFail : NetCall → Bool := fun _ => false

/-- A small concrete dataset. -/
def dbSample : List DebtRow := [⟨0, 100⟩, ⟨-1, 90⟩, ⟨-7, 50⟩]

/-- A dry run over the sample dataset whose latest record is exactly
`MAX_STALE_DAYS` days old. -/
def envOk : Env := ⟨3, dbSample, noFail, varsDry, "resp"⟩

/-- A run over the sample dataset with fresh data, credentials present and
`DRY_RUN` unset. -/
def envPost : Env := ⟨0, dbSample, noFail, varsCreds, "resp"⟩

/-- A dry run against an empty dataset: building the tweet fails. -/
def envEmptyDry : Env := ⟨0, [], noFail, varsDry, "resp"⟩

/-- A dry run whose latest record is 100 days old: the staleness guard
fires. -/
def envStaleDry : Env := ⟨100, dbSample, noFail, varsDry, "resp"⟩

theorem mem_insertDesc {x r : DebtRow} {l : List DebtRow} :
    x ∈ insertDesc r l ↔ x = r ∨ x ∈ l := by
  induction l with
  | nil => simp [insertDesc]
  | cons a as ih =>
    simp only [insertDesc]
    split
    · simp [List.mem_cons]
    · simp only [List.mem_cons, ih]
      tauto

theorem insertDesc_ne_nil (r : DebtRow) (l : List DebtRow) : insertDesc r l ≠ [] := by
  cases l with
  | nil => simp [insertDesc]
  | cons a as =>
    simp only [insertDesc]
    split <;> simp

theorem sortDesc_eq_nil {l : List DebtRow} : sortDesc l = [] ↔ l = [] := by
  cases l with
  | nil => simp [sortDesc]
  | cons a as => simp [sortDesc, insertDesc_ne_nil]

theorem mem_sortDesc {x : DebtRow} {l : List DebtRow} : x ∈ sortDesc l ↔ x ∈ l := by
  induction l with
  | nil => simp [sortDesc]
  | cons a as ih => simp [sortDesc, mem_insertDesc, ih]

theorem insertDesc_head (r : DebtRow) (l : List DebtRow) :
    ∃ h t, insertDesc r l = h :: t ∧ r.record_date ≤ h.record_date ∧
      ∀ y ys, l = y :: ys → y.record_date ≤ h.record_date := by
  cases l with
  | nil => exact ⟨r, [], rfl, le_refl _, by simp⟩
  | cons a as =>
    by_cases hc : a.record_date ≤ r.record_date
    · refine ⟨r, a :: as, by simp [insertDesc, hc], le_refl _, ?_⟩
      intro y ys hy
      cases hy
      exact hc
    · refine ⟨a, insertDesc r as, by simp [insertDesc, hc], by omega, ?_⟩
      intro y ys hy
      cases hy
      exact le_refl _

theorem sortDesc_head_max {l : List DebtRow} {r : DebtRow} {t : List DebtRow}
    (h : sortDesc l = r :: t) : ∀ x ∈ l, x.record_date ≤ r.record_date := by
  induction l generalizing r t with
  | nil => simp [sortDesc] at h
  | cons a as ih =>
    simp only [sortDesc] at h
    obtain ⟨h0, t0, he, hle, hhead⟩ := insertDesc_head a (sortDesc as)
    rw [he] at h
    have h1 : h0 = r := by injection h
    rw [← h1]
    intro x hx
    rcases List.mem_cons.mp hx with rfl | hx
    · exact hle
    · cases hs : sortDesc as with
      | nil =>
        rw [sortDesc_eq_nil] at hs
        subst hs
        simp at hx
      | cons y ys =>
        have hx1 : x.record_date ≤ y.record_date := ih hs x hx
        have hx2 : y.record_date ≤ h0.record_date := hhead y ys hs
        omega

theorem _request_ok {env : Env} {call : NetCall} {filt : Option Int} {r : DebtRow}
    (h : _request env call filt = Except.ok r) :
    env.netFail call = false ∧ r ∈ env.db ∧ rowMatches filt r = true ∧
      ∀ x ∈ env.db, rowMatches filt x = true → x.record_date ≤ r.record_date := by
  unfold _request at h
  split at h
  · exact absurd h (by simp)
  · next hnf =>
    refine ⟨by simpa using hnf, ?_⟩
    unfold apiData at h
    cases hs : sortDesc (env.db.filter (rowMatches filt)) with
    | nil => rw [hs] at h; exact absurd h (by simp)
    | cons r0 t0 =>
      rw [hs] at h
      simp only [List.take_succ_cons, List.take_zero] at h
      have hr0 : r0 = r := by simpa using h
      rw [← hr0]
      have hmem : r0 ∈ env.db.filter (rowMatches filt) := by
        rw [← mem_sortDesc, hs]; exact List.mem_cons_self _ _
      obtain ⟨hdb, hmatch⟩ := List.mem_filter.mp hmem
      refine ⟨hdb, hmatch, ?_⟩
      intro x hx hmx
      exact sortDesc_head_max hs x (List.mem_filter.mpr ⟨hx, hmx⟩)

theorem _request_ok_iff {env : Env} {call : NetCall} {filt : Option Int} :
    (∃ r, _request env call filt = Except.ok r) ↔
      env.netFail call = false ∧ ∃ x ∈ env.db, rowMatches filt x = true := by
  constructor
  · rintro ⟨r, hr⟩
    obtain ⟨h1, h2, h3, _⟩ := _request_ok hr
    exact ⟨h1, r, h2, h3⟩
  · rintro ⟨hnf, x, hx, hmx⟩
    unfold _request
    rw [hnf]
    simp only [Bool.false_eq_true, if_false]
    unfold apiData
    cases hs : sortDesc (env.db.filter (rowMatches filt)) with
    | nil =>
      rw [sortDesc_eq_nil] at hs
      exact absurd hs (List.ne_nil_of_mem (List.mem_filter.mpr ⟨hx, hmx⟩))
    | cons r0 t0 => exact ⟨r0, by simp⟩

/-- C6: given a target date, `fetch_debt_on_or_before` returns the most
recent record with `record_date` at most the target (the remote API being
modelled as returning the rows matching the `lte` filter sorted by
descending `record_date`), `fetch_latest_debt_row` returns the single most
recent record overall, and each fails exactly when its network call errors
or no row matches. -/
theorem fetch_spec (env : Env) (t : Int) :
    (∀ r, (fetch_debt_on_or_before env t).1 = Except.ok r →
        r ∈ env.db ∧ r.record_date ≤ t ∧
        ∀ x ∈ env.db, x.record_date ≤ t → x.record_date ≤ r.record_date) ∧
    ((∃ r, (fetch_debt_on_or_before env t).1 = Except.ok r) ↔
        env.netFail (NetCall.getLte t) = false ∧ ∃ x ∈ env.db, x.record_date ≤ t) ∧
    (∀ r, (fetch_latest_debt_row env).1 = Except.ok r →
        r ∈ env.db ∧ ∀ x ∈ env.db, x.record_date ≤ r.record_date) ∧
    ((∃ r, (fetch_latest_debt_row env).1 = Except.ok r) ↔
        env.netFail NetCall.getLatest = false ∧ env.db ≠ []) := by
  refine ⟨?_, ?_, ?_, ?_⟩
  · intro r hr
    simp only [fetch_debt_on_or_before] at hr
    obtain ⟨_, hdb, hmatch, hmax⟩ := _request_ok hr
    refine ⟨hdb, by simpa [rowMatches] using hmatch, ?_⟩
    intro x hx hxt
    exact hmax x hx (by simpa [rowMatches] using hxt)
  · simpa [fetch_debt_on_or_before, rowMatches] using
      (@_request_ok_iff env (NetCall.getLte t) (some t))
  · intro r hr
    simp only [fetch_latest_debt_row] at hr
    obtain ⟨_, hdb, _, hmax⟩ := _request_ok hr
    exact ⟨hdb, fun x hx => hmax x hx (by simp [rowMatches])⟩
  · have hi := @_request_ok_iff env NetCall.getLatest none
    simp only [fetch_latest_debt_row]
    rw [hi]
    simp [rowMatches, List.eq_nil_iff_forall_not_mem]

/-- Witness for C6 on a concrete environment: the record dated `-1` is the
most recent one on or before day `-1`, and the record dated `0` is the most
recent overall. -/
theorem fetch_spec_witness :
    ((⟨-1, 90⟩ : DebtRow) ∈ envOk.db ∧ (⟨-1, 90⟩ : DebtRow).record_date ≤ -1 ∧
      ∀ x ∈ envOk.db, x.record_date ≤ -1 → x.record_date ≤ (⟨-1, 90⟩ : DebtRow).record_date) ∧
    ((⟨0, 100⟩ : DebtRow) ∈ envOk.db ∧
      ∀ x ∈ envOk.db, x.record_date ≤ (⟨0, 100⟩ : DebtRow).record_date) :=
  ⟨(fetch_spec envOk (-1)).1 ⟨-1, 90⟩ rfl, (fetch_spec envOk (-1)).2.2.1 ⟨0, 100⟩ rfl⟩

/-- C4: whenever at least one of the four credentials is unset in the
environment, `post_to_x` raises before issuing any POST: its result is an
error and its list of issued network calls is empty. -/
theorem post_to_x_missing_cred (env : Env) (text : String)
    (h : env.vars "X_API_KEY" = none ∨ env.vars "X_API_SECRET" = none ∨
         env.vars "X_ACCESS_TOKEN" = none ∨ env.vars "X_ACCESS_TOKEN_SECRET" = none) :
    (∃ e, (post_to_x env text).1 = Except.error e) ∧ (post_to_x env text).2 = [] := by
  have hcred : credsPresent env = false := by
    rcases h with h | h | h | h <;> simp [credsPresent, h, truthy]
  rw [post_to_x, hcred]
  exact ⟨⟨_, rfl⟩, rfl⟩

/-- Witness for C4: with no environment variable set, posting aborts with
an error and no POST call. -/
theorem post_to_x_missing_cred_witness :
    (∃ e, (post_to_x envOk "hello").1 = Except.error e) ∧ (post_to_x envOk "hello").2 = [] :=
  post_to_x_missing_cred envOk "hello" (Or.inl (by decide))

theorem post_to_x_calls (env : Env) (text : String) :
    (post_to_x env text).2 = [] ∨ (post_to_x env text).2 = [NetCall.postTweet text] := by
  rw [post_to_x]
  split
  · exact Or.inl rfl
  · split
    · exact Or.inr rfl
    · exact Or.inr rfl

theorem build_latest_err (env : Env) (e : String)
    (hl : _request env NetCall.getLatest none = Except.error e) :
    build_tweet_text env = (Except.error e, [NetCall.getLatest]) := by
  simp [build_tweet_text, fetch_latest_debt_row, hl]

theorem build_stale (env : Env) (latest : DebtRow)
    (hl : _request env NetCall.getLatest none = Except.ok latest)
    (hst : env.today - latest.record_date > MAX_STALE_DAYS) :
    build_tweet_text env =
      (Except.error ("Latest debt data is stale: " ++ toString latest.record_date ++
        " (" ++ toString (env.today - latest.record_date) ++ " days old, max allowed " ++
        toString MAX_STALE_DAYS ++ ")."), [NetCall.getLatest]) := by
  simp [build_tweet_text, fetch_latest_debt_row, hl, parse_debt, hst]

theorem build_yerr (env : Env) (latest : DebtRow) (e : String)
    (hl : _request env NetCall.getLatest none = Except.ok latest)
    (hst : ¬(env.today - latest.record_date > MAX_STALE_DAYS))
    (hy : _request env (NetCall.getLte (latest.record_date - 1))
        (some (latest.record_date - 1)) = Except.error e) :
    build_tweet_text env =
      (Except.error e, [NetCall.getLatest, NetCall.getLte (latest.record_date - 1)]) := by
  simp [build_tweet_text, fetch_latest_debt_row, fetch_debt_on_or_before, hl,
    parse_debt, hst, hy]

theorem build_werr (env : Env) (latest y : DebtRow) (e : String)
    (hl : _request env NetCall.getLatest none = Except.ok latest)
    (hst : ¬(env.today - latest.record_date > MAX_STALE_DAYS))
    (hy : _request env (NetCall.getLte (latest.record_date - 1))
        (some (latest.record_date - 1)) = Except.ok y)
    (hw : _request env (NetCall.getLte (latest.record_date - 7))
        (some (latest.record_date - 7)) = Except.error e) :
    build_tweet_text env =
      (Except.error e, [NetCall.getLatest, NetCall.getLte (latest.record_date - 1),
        NetCall.getLte (latest.record_date - 7)]) := by
  simp [build_tweet_text, fetch_latest_debt_row, fetch_debt_on_or_before, hl,
    parse_debt, hst, hy, hw]

theorem build_ok_eq (env : Env) (latest y w : DebtRow)
    (hl : _request env NetCall.getLatest none = Except.ok latest)
    (hst : ¬(env.today - latest.record_date > MAX_STALE_DAYS))
    (hy : _request env (NetCall.getLte (latest.record_date - 1))
        (some (latest.record_date - 1)) = Except.ok y)
    (hw : _request env (NetCall.getLte (latest.record_date - 7))
        (some (latest.record_date - 7)) = Except.ok w) :
    build_tweet_text env =
      (Except.ok (tweetText latest.tot_pub_debt_out_amt y.tot_pub_debt_out_amt
          w.tot_pub_debt_out_amt
          (latest.tot_pub_debt_out_amt - y.tot_pub_debt_out_amt)
          (latest.tot_pub_debt_out_amt - w.tot_pub_debt_out_amt)),
        [NetCall.getLatest, NetCall.getLte (latest.record_date - 1),
          NetCall.getLte (latest.record_date - 7)]) := by
  simp [build_tweet_text, fetch_latest_debt_row, fetch_debt_on_or_before, hl,
    parse_debt, hst, hy, hw]

theorem tweetText_split_daily (a b c d e : Rat) :
    tweetText a b c d e =
      (litHeader ++ (litToday ++ format2 a ++ "\n") ++ (litYday ++ format2 b ++ "\n") ++
        (litWeek ++ format2 c ++ "\n\n") ++ litDaily) ++ format_billions d ++
      ("\n" ++ (litWkly ++ format_billions e ++ "\n\n") ++ litTags) := by
  simp [tweetText, String.append_assoc]

theorem tweetText_split_weekly (a b c d e : Rat) :
    tweetText a b c d e =
      (litHeader ++ (litToday ++ format2 a ++ "\n") ++ (litYday ++ format2 b ++ "\n") ++
        (litWeek ++ format2 c ++ "\n\n") ++ (litDaily ++ format_billions d ++ "\n") ++
        litWkly) ++ format_billions e ++ ("\n\n" ++ litTags) := by
  simp [tweetText, String.append_assoc]

/-- C2: assuming the three fetches succeed, `build_tweet_text` fails
exactly when the latest fetched record is more than `MAX_STALE_DAYS = 3`
days before the current calendar date. -/
theorem build_tweet_text_stale_iff (env : Env) (latest : DebtRow)
    (hl : (fetch_latest_debt_row env).1 = Except.ok latest)
    (hy : ∃ y, (fetch_debt_on_or_before env (latest.record_date - 1)).1 = Except.ok y)
    (hw : ∃ w, (fetch_debt_on_or_before env (latest.record_date - 7)).1 = Except.ok w) :
    (∃ e, (build_tweet_text env).1 = Except.error e) ↔
      env.today - latest.record_date > MAX_STALE_DAYS := by
  have hl' : _request env NetCall.getLatest none = Except.ok latest := by
    simpa [fetch_latest_debt_row] using hl
  obtain ⟨y, hy'⟩ := hy
  obtain ⟨w, hw'⟩ := hw
  simp only [fetch_debt_on_or_before] at hy' hw'
  by_cases hst : env.today - latest.record_date > MAX_STALE_DAYS
  · rw [build_stale env latest hl' hst]
    simpa using hst
  · rw [build_ok_eq env latest y w hl' hst hy' hw']
    simpa using hst

/-- Witness for C2: over the sample dataset, with the latest record exactly
three days old, building the tweet does not fail. -/
theorem build_tweet_text_stale_iff_witness :
    ¬∃ e, (build_tweet_text envOk).1 = Except.error e := fun hc =>
  absurd
    ((build_tweet_text_stale_iff envOk ⟨0, 100⟩ rfl
      ⟨⟨-1, 90⟩, rfl⟩ ⟨⟨-7, 50⟩, rfl⟩).mp hc)
    (by decide)

/-- C9: the yesterday and one-week-ago targets are anchored to the date of
the latest fetched record: once the latest fetch succeeds and passes the
staleness guard, the calls made by `build_tweet_text` are the latest GET
followed by a GET filtered at the latest record date minus one day and,
when that succeeds, one filtered at the latest record date minus seven
days — regardless of the current calendar date. -/
theorem build_targets_anchor (env : Env) (latest : DebtRow)
    (hl : (fetch_latest_debt_row env).1 = Except.ok latest)
    (hfresh : env.today - latest.record_date ≤ MAX_STALE_DAYS) :
    (build_tweet_text env).2 =
        [NetCall.getLatest, NetCall.getLte (latest.record_date - 1)] ∨
    (build_tweet_text env).2 =
        [NetCall.getLatest, NetCall.getLte (latest.record_date - 1),
          NetCall.getLte (latest.record_date - 7)] := by
  have hl' : _request env NetCall.getLatest none = Except.ok latest := by
    simpa [fetch_latest_debt_row] using hl
  have hst : ¬(env.today - latest.record_date > MAX_STALE_DAYS) := not_lt.mpr hfresh
  cases hy : _request env (NetCall.getLte (latest.record_date - 1))
      (some (latest.record_date - 1)) with
  | error e => rw [build_yerr env latest e hl' hst hy]; exact Or.inl rfl
  | ok y =>
    cases hw : _request env (NetCall.getLte (latest.record_date - 7))
        (some (latest.record_date - 7)) with
    | error e => rw [build_werr env latest y e hl' hst hy hw]; exact Or.inr rfl
    | ok w => rw [build_ok_eq env latest y w hl' hst hy hw]; exact Or.inr rfl

/-- Witness for C9: on the sample environment the second and third calls
are filtered at the latest record date minus one and minus seven days. -/
theorem build_targets_anchor_witness :
    (build_tweet_text envOk).2 =
        [NetCall.getLatest, NetCall.getLte ((⟨0, 100⟩ : DebtRow).record_date - 1)] ∨
    (build_tweet_text envOk).2 =
        [NetCall.getLatest, NetCall.getLte ((⟨0, 100⟩ : DebtRow).record_date - 1),
          NetCall.getLte ((⟨0, 100⟩ : DebtRow).record_date - 7)] :=
  build_targets_anchor envOk ⟨0, 100⟩ rfl (by decide)

/-- C1: when `build_tweet_text` succeeds, the daily delta is the latest
amount minus the yesterday amount and the weekly delta is the latest
amount minus the one-week-ago amount, the three amounts being the results
of the three fetches of the run, and both formatted deltas appear in the
returned tweet text. -/
theorem build_tweet_text_deltas (env : Env)
    (h : (build_tweet_text env).1.isOk = true) :
    ∃ s latest yrow wrow,
      (build_tweet_text env).1 = Except.ok s ∧
      (fetch_latest_debt_row env).1 = Except.ok latest ∧
      (fetch_debt_on_or_before env (latest.record_date - 1)).1 = Except.ok yrow ∧
      (fetch_debt_on_or_before env (latest.record_date - 7)).1 = Except.ok wrow ∧
      (∃ p q, s = p ++ format_billions
        (latest.tot_pub_debt_out_amt - yrow.tot_pub_debt_out_amt) ++ q) ∧
      (∃ p q, s = p ++ format_billions
        (latest.tot_pub_debt_out_amt - wrow.tot_pub_debt_out_amt) ++ q) := by
  cases hl : _request env NetCall.getLatest none with
  | error e =>
    rw [build_latest_err env e hl] at h
    simp [Except.isOk, Except.toBool] at h
  | ok latest =>
    by_cases hst : env.today - latest.record_date > MAX_STALE_DAYS
    · rw [build_stale env latest hl hst] at h
      simp [Except.isOk, Except.toBool] at h
    · cases hy : _request env (NetCall.getLte (latest.record_date - 1))
          (some (latest.record_date - 1)) with
      | error e =>
        rw [build_yerr env latest e hl hst hy] at h
        simp [Except.isOk, Except.toBool] at h
      | ok y =>
        cases hw : _request env (NetCall.getLte (latest.record_date - 7))
            (some (latest.record_date - 7)) with
        | error e =>
          rw [build_werr env latest y e hl hst hy hw] at h
          simp [Except.isOk, Except.toBool] at h
        | ok w =>
          refine ⟨tweetText latest.tot_pub_debt_out_amt y.tot_pub_debt_out_amt
              w.tot_pub_debt_out_amt
              (latest.tot_pub_debt_out_amt - y.tot_pub_debt_out_amt)
              (latest.tot_pub_debt_out_amt - w.tot_pub_debt_out_amt),
            latest, y, w, ?_, ?_, ?_, ?_, ?_, ?_⟩
          · rw [build_ok_eq env latest y w hl hst hy hw]
          · simpa [fetch_latest_debt_row] using hl
          · simpa [fetch_debt_on_or_before] using hy
          · simpa [fetch_debt_on_or_before] using hw
          · exact ⟨_, _, tweetText_split_daily _ _ _ _ _⟩
          · exact ⟨_, _, tweetText_split_weekly _ _ _ _ _⟩

/-- Witness for C1 on the sample environment. -/
theorem build_tweet_text_deltas_witness :
    ∃ s latest yrow wrow,
      (build_tweet_text envOk).1 = Except.ok s ∧
      (fetch_latest_debt_row envOk).1 = Except.ok latest ∧
      (fetch_debt_on_or_before envOk (latest.record_date - 1)).1 = Except.ok yrow ∧
      (fetch_debt_on_or_before envOk (latest.record_date - 7)).1 = Except.ok wrow ∧
      (∃ p q, s = p ++ format_billions
        (latest.tot_pub_debt_out_amt - yrow.tot_pub_debt_out_amt) ++ q) ∧
      (∃ p q, s = p ++ format_billions
        (latest.tot_pub_debt_out_amt - wrow.tot_pub_debt_out_amt) ++ q) :=
  build_tweet_text_deltas envOk rfl

theorem build_calls_no_post (env : Env) (txt : String) :
    NetCall.postTweet txt ∉ (build_tweet_text env).2 := by
  cases hl : _request env NetCall.getLatest none with
  | error e => rw [build_latest_err env e hl]; simp
  | ok latest =>
    by_cases hst : env.today - latest.record_date > MAX_STALE_DAYS
    · rw [build_stale env latest hl hst]; simp
    · cases hy : _request env (NetCall.getLte (latest.record_date - 1))
          (some (latest.record_date - 1)) with
      | error e => rw [build_yerr env latest e hl hst hy]; simp
      | ok y =>
        cases hw : _request env (NetCall.getLte (latest.record_date - 7))
            (some (latest.record_date - 7)) with
        | error e => rw [build_werr env latest y e hl hst hy hw]; simp
        | ok w => rw [build_ok_eq env latest y w hl hst hy hw]; simp

theorem build_ok_calls (env : Env) (tweet : String) (tr : List NetCall)
    (hb : build_tweet_text env = (Except.ok tweet, tr)) :
    ∃ d, tr = [NetCall.getLatest, NetCall.getLte (d - 1), NetCall.getLte (d - 7)] := by
  cases hl : _request env NetCall.getLatest none with
  | error e => rw [build_latest_err env e hl] at hb; simp at hb
  | ok latest =>
    by_cases hst : env.today - latest.record_date > MAX_STALE_DAYS
    · rw [build_stale env latest hl hst] at hb; simp at hb
    · cases hy : _request env (NetCall.getLte (latest.record_date - 1))
          (some (latest.record_date - 1)) with
      | error e => rw [build_yerr env latest e hl hst hy] at hb; simp at hb
      | ok y =>
        cases hw : _request env (NetCall.getLte (latest.record_date - 7))
            (some (latest.record_date - 7)) with
        | error e => rw [build_werr env latest y e hl hst hy hw] at hb; simp at hb
        | ok w =>
          rw [build_ok_eq env latest y w hl hst hy hw] at hb
          injection hb with h1 h2
          exact ⟨latest.record_date, h2.symm⟩

theorem build_calls_shape (env : Env) :
    ∃ d, (build_tweet_text env).2 = [NetCall.getLatest] ∨
      (build_tweet_text env).2 = [NetCall.getLatest, NetCall.getLte (d - 1)] ∨
      (build_tweet_text env).2 = [NetCall.getLatest, NetCall.getLte (d - 1),
        NetCall.getLte (d - 7)] := by
  cases hl : _request env NetCall.getLatest none with
  | error e => exact ⟨0, Or.inl (by rw [build_latest_err env e hl])⟩
  | ok latest =>
    by_cases hst : env.today - latest.record_date > MAX_STALE_DAYS
    · exact ⟨0, Or.inl (by rw [build_stale env latest hl hst])⟩
    · cases hy : _request env (NetCall.getLte (latest.record_date - 1))
          (some (latest.record_date - 1)) with
      | error e =>
        exact ⟨latest.record_date, Or.inr (Or.inl (by rw [build_yerr env latest e hl hst hy]))⟩
      | ok y =>
        cases hw : _request env (NetCall.getLte (latest.record_date - 7))
            (some (latest.record_date - 7)) with
        | error e =>
          exact ⟨latest.record_date,
            Or.inr (Or.inr (by rw [build_werr env latest y e hl hst hy hw]))⟩
        | ok w =>
          exact ⟨latest.record_date,
            Or.inr (Or.inr (by rw [build_ok_eq env latest y w hl hst hy hw]))⟩

theorem build_calls_nodup (env : Env) : (build_tweet_text env).2.Nodup := by
  obtain ⟨d, hsh⟩ := build_calls_shape env
  rcases hsh with h | h | h <;> rw [h] <;> simp

/-- C3 counterexample: a dry run over an empty dataset never posts, but it
prints no tweet preview and exits with code 1 rather than terminating
successfully. -/
theorem main_dry_run_cex :
    envEmptyDry.vars "DRY_RUN" = some "1" ∧
    (main envEmptyDry).exitCode = 1 ∧ (main envEmptyDry).stdout = [] ∧
    (main envEmptyDry).invokedPost = false := by decide

/-- C3 (amended): in every run with dry-run mode enabled, `main` never
invokes `post_to_x` and no POST call is issued; and whenever
`build_tweet_text` succeeds, the run also prints the tweet preview and
terminates successfully. -/
theorem main_dry_run (env : Env) (h : env.vars "DRY_RUN" = some "1") :
    (main env).invokedPost = false ∧
    (∀ txt, NetCall.postTweet txt ∉ (main env).calls) ∧
    ∀ tweet tr, build_tweet_text env = (Except.ok tweet, tr) →
      (main env).exitCode = 0 ∧
      (main env).stdout = previewLines tweet ++ [dryRunMsg] := by
  have hd : (env.vars "DRY_RUN").getD "0" = "1" := by rw [h]; rfl
  rcases hbr : build_tweet_text env with ⟨res, btr⟩
  cases res with
  | error e =>
    have hm : main env = ⟨1, [], ["[ERROR] Failed to build tweet: " ++ e], btr, false⟩ := by
      simp [main, hbr]
    rw [hm]
    refine ⟨rfl, ?_, ?_⟩
    · intro txt
      have hnp := build_calls_no_post env txt
      rw [hbr] at hnp
      simpa using hnp
    · intro tweet tr hb2
      simp at hb2
  | ok tweet =>
    have hm : main env = ⟨0, previewLines tweet ++ [dryRunMsg], [], btr, false⟩ := by
      simp [main, hbr, hd]
    rw [hm]
    refine ⟨rfl, ?_, ?_⟩
    · intro txt
      have hnp := build_calls_no_post env txt
      rw [hbr] at hnp
      simpa using hnp
    · intro tweet2 tr2 hb2
      injection hb2 with h1 h2
      injection h1 with h1
      rw [← h1]
      exact ⟨rfl, rfl⟩

/-- Witness for C3 (amended) on the sample dry-run environment. -/
theorem main_dry_run_witness :
    (main envOk).invokedPost = false ∧
    (∀ txt, NetCall.postTweet txt ∉ (main envOk).calls) ∧
    ∀ tweet tr, build_tweet_text envOk = (Except.ok tweet, tr) →
      (main envOk).exitCode = 0 ∧
      (main envOk).stdout = previewLines tweet ++ [dryRunMsg] :=
  main_dry_run envOk (by decide)

theorem getD_dry_iff (env : Env) :
    (env.vars "DRY_RUN").getD "0" = "1" ↔ env.vars "DRY_RUN" = some "1" := by
  cases hv : env.vars "DRY_RUN" with
  | none => decide
  | some v => simp

/-- C10: once the tweet is built, dry-run mode is taken exactly when the
`DRY_RUN` variable holds the string "1"; for every other value, including
the variable being unset, `main` proceeds to the real publish path and
control reaches `post_to_x`. -/
theorem dry_run_env_iff (env : Env) (h : (build_tweet_text env).1.isOk = true) :
    ((main env).invokedPost = false ↔ env.vars "DRY_RUN" = some "1") ∧
    (env.vars "DRY_RUN" ≠ some "1" → (main env).invokedPost = true) := by
  obtain ⟨tweet, btr, hbr⟩ : ∃ tweet btr, build_tweet_text env = (Except.ok tweet, btr) := by
    rcases hb : build_tweet_text env with ⟨res, btr⟩
    cases res with
    | error e => rw [hb] at h; simp [Except.isOk, Except.toBool] at h
    | ok t => exact ⟨t, btr, rfl⟩
  by_cases hd : (env.vars "DRY_RUN").getD "0" = "1"
  · have hm : main env = ⟨0, previewLines tweet ++ [dryRunMsg], [], btr, false⟩ := by
      simp [main, hbr, hd]
    rw [hm]
    refine ⟨?_, ?_⟩
    · simpa using (getD_dry_iff env).mp hd
    · intro hne
      exact absurd ((getD_dry_iff env).mp hd) hne
  · rcases hp : post_to_x env tweet with ⟨pres, ptr⟩
    cases pres with
    | error e =>
      have hm : main env =
          ⟨1, previewLines tweet, ["[ERROR] Failed to post tweet: " ++ e],
            btr ++ ptr, true⟩ := by
        simp [main, hbr, hd, hp]
      rw [hm]
      refine ⟨?_, fun _ => rfl⟩
      simp only [show (true = false) = False by simp, false_iff]
      exact fun hv => hd ((getD_dry_iff env).mpr hv)
    | ok r =>
      have hm : main env =
          ⟨0, previewLines tweet ++ ["[INFO] Tweet posted successfully.", r], [],
            btr ++ ptr, true⟩ := by
        simp [main, hbr, hd, hp]
      rw [hm]
      refine ⟨?_, fun _ => rfl⟩
      simp only [show (true = false) = False by simp, false_iff]
      exact fun hv => hd ((getD_dry_iff env).mpr hv)

/-- Witness for C10: an environment with credentials set and `DRY_RUN`
unset proceeds to the publish path. -/
theorem dry_run_env_iff_witness :
    ((main envPost).invokedPost = false ↔ envPost.vars "DRY_RUN" = some "1") ∧
    (envPost.vars "DRY_RUN" ≠ some "1" → (main envPost).invokedPost = true) :=
  dry_run_env_iff envPost rfl

/-- C5 counterexample: a run in dry-run mode whose build fails on stale
data exits with code 1, so the exit code is not 0 for every dry run. -/
theorem main_exit_cex :
    envStaleDry.vars "DRY_RUN" = some "1" ∧ (main envStaleDry).exitCode = 1 := by
  decide

/-- C5 (amended): `main` exits with code 0 exactly when `build_tweet_text`
succeeds and either dry-run mode is enabled or `post_to_x` succeeds; in
every other case it exits with code 1, having logged the failure to
stderr; and no network call is repeated. -/
theorem main_exit_spec (env : Env) :
    ((main env).exitCode = 0 ∨ (main env).exitCode = 1) ∧
    ((main env).exitCode = 0 ↔
      ∃ tweet tr, build_tweet_text env = (Except.ok tweet, tr) ∧
        ((env.vars "DRY_RUN").getD "0" = "1" ∨
          ∃ r tr2, post_to_x env tweet = (Except.ok r, tr2))) ∧
    ((main env).exitCode = 1 →
      ∃ e, (main env).stderr = ["[ERROR] Failed to build tweet: " ++ e] ∨
           (main env).stderr = ["[ERROR] Failed to post tweet: " ++ e]) ∧
    (main env).calls.Nodup := by
  rcases hbr : build_tweet_text env with ⟨res, btr⟩
  have hnd : btr.Nodup := by
    have hn := build_calls_nodup env
    rw [hbr] at hn
    exact hn
  cases res with
  | error e =>
    have hm : main env = ⟨1, [], ["[ERROR] Failed to build tweet: " ++ e], btr, false⟩ := by
      simp [main, hbr]
    rw [hm]
    refine ⟨Or.inr rfl, ?_, fun _ => ⟨e, Or.inl rfl⟩, hnd⟩
    simp
  | ok tweet =>
    obtain ⟨d, hdtr⟩ := build_ok_calls env tweet btr hbr
    by_cases hd : (env.vars "DRY_RUN").getD "0" = "1"
    · have hm : main env = ⟨0, previewLines tweet ++ [dryRunMsg], [], btr, false⟩ := by
        simp [main, hbr, hd]
      rw [hm]
      refine ⟨Or.inl rfl, ?_, ?_, hnd⟩
      · simp only [true_iff, eq_self_iff_true]
        exact ⟨tweet, btr, rfl, Or.inl hd⟩
      · intro hc
        simp at hc
    · rcases hp : post_to_x env tweet with ⟨pres, ptr⟩
      have hptr : ptr = [] ∨ ptr = [NetCall.postTweet tweet] := by
        have hpc := post_to_x_calls env tweet
        rw [hp] at hpc
        exact hpc
      have hndall : (btr ++ ptr).Nodup := by
        rcases hptr with h0 | h0 <;> rw [h0, hdtr] <;> simp
      cases pres with
      | error e =>
        have hm : main env =
            ⟨1, previewLines tweet, ["[ERROR] Failed to post tweet: " ++ e],
              btr ++ ptr, true⟩ := by
          simp [main, hbr, hd, hp]
        rw [hm]
        refine ⟨Or.inr rfl, ?_, fun _ => ⟨e, Or.inr rfl⟩, hndall⟩
        constructor
        · intro hc
          simp at hc
        · rintro ⟨t2, tr2, ht, hrest⟩
          injection ht with h1 h2
          injection h1 with h1
          rcases hrest with hdry | ⟨r, tr2', hpost⟩
          · exact absurd hdry hd
          · rw [← h1, hp] at hpost
            simp at hpost
      | ok r =>
        have hm : main env =
            ⟨0, previewLines tweet ++ ["[INFO] Tweet posted successfully.", r], [],
              btr ++ ptr, true⟩ := by
          simp [main, hbr, hd, hp]
        rw [hm]
        refine ⟨Or.inl rfl, ?_, ?_, hndall⟩
        · simp only [true_iff, eq_self_iff_true]
          exact ⟨tweet, btr, rfl, Or.inr ⟨r, ptr, hp⟩⟩
        · intro hc
          simp at hc

/-- Witness for C5 (amended): the posting environment runs to a successful
exit. -/
theorem main_exit_spec_witness :
    ((main envPost).exitCode = 0 ∨ (main envPost).exitCode = 1) ∧
    ((main envPost).exitCode = 0 ↔
      ∃ tweet tr, build_tweet_text envPost = (Except.ok tweet, tr) ∧
        ((envPost.vars "DRY_RUN").getD "0" = "1" ∨
          ∃ r tr2, post_to_x envPost tweet = (Except.ok r, tr2))) ∧
    ((main envPost).exitCode = 1 →
      ∃ e, (main envPost).stderr = ["[ERROR] Failed to build tweet: " ++ e] ∨
           (main envPost).stderr = ["[ERROR] Failed to post tweet: " ++ e]) ∧
    (main envPost).calls.Nodup :=
  main_exit_spec envPost

/-- C8: every run issues at most four network calls, and in source order:
the GET for the latest record, then the GET filtered one day before it,
then the GET filtered seven days before it, then at most one POST; nothing
else. -/
theorem main_calls_shape (env : Env) :
    (main env).calls.length ≤ 4 ∧
    ∃ d txt,
      (main env).calls = [NetCall.getLatest] ∨
      (main env).calls = [NetCall.getLatest, NetCall.getLte (d - 1)] ∨
      (main env).calls = [NetCall.getLatest, NetCall.getLte (d - 1),
        NetCall.getLte (d - 7)] ∨
      (main env).calls = [NetCall.getLatest, NetCall.getLte (d - 1),
        NetCall.getLte (d - 7), NetCall.postTweet txt] := by
  rcases hbr : build_tweet_text env with ⟨res, btr⟩
  have hshape := build_calls_shape env
  rw [hbr] at hshape
  obtain ⟨d0, hsh⟩ := hshape
  cases res with
  | error e =>
    have hm : main env = ⟨1, [], ["[ERROR] Failed to build tweet: " ++ e], btr, false⟩ := by
      simp [main, hbr]
    have hsh2 : btr = [NetCall.getLatest] ∨
        btr = [NetCall.getLatest, NetCall.getLte (d0 - 1)] ∨
        btr = [NetCall.getLatest, NetCall.getLte (d0 - 1), NetCall.getLte (d0 - 7)] := hsh
    rw [hm]
    rcases hsh2 with h | h | h <;> rw [h] <;>
      exact ⟨by simp, d0, "", by simp⟩
  | ok tweet =>
    obtain ⟨d, hdtr⟩ := build_ok_calls env tweet btr hbr
    by_cases hd : (env.vars "DRY_RUN").getD "0" = "1"
    · have hm : main env = ⟨0, previewLines tweet ++ [dryRunMsg], [], btr, false⟩ := by
        simp [main, hbr, hd]
      rw [hm, hdtr]
      exact ⟨by simp, d, "", by simp⟩
    · rcases hp : post_to_x env tweet with ⟨pres, ptr⟩
      have hptr : ptr = [] ∨ ptr = [NetCall.postTweet tweet] := by
        have hpc := post_to_x_calls env tweet
        rw [hp] at hpc
        exact hpc
      cases pres with
      | error e =>
        have hm : main env =
            ⟨1, previewLines tweet, ["[ERROR] Failed to post tweet: " ++ e],
              btr ++ ptr, true⟩ := by
          simp [main, hbr, hd, hp]
        rw [hm, hdtr]
        rcases hptr with h0 | h0 <;> rw [h0] <;>
          exact ⟨by simp, d, tweet, by simp⟩
      | ok r =>
        have hm : main env =
            ⟨0, previewLines tweet ++ ["[INFO] Tweet posted successfully.", r], [],
              btr ++ ptr, true⟩ := by
          simp [main, hbr, hd, hp]
        rw [hm, hdtr]
        rcases hptr with h0 | h0 <;> rw [h0] <;>
          exact ⟨by simp, d, tweet, by simp⟩

/-- Witness for C8 on the posting environment. -/
theorem main_calls_shape_witness :
    (main envPost).calls.length ≤ 4 ∧
    ∃ d txt,
      (main envPost).calls = [NetCall.getLatest] ∨
      (main envPost).calls = [NetCall.getLatest, NetCall.getLte (d - 1)] ∨
      (main envPost).calls = [NetCall.getLatest, NetCall.getLte (d - 1),
        NetCall.getLte (d - 7)] ∨
      (main envPost).calls = [NetCall.getLatest, NetCall.getLte (d - 1),
        NetCall.getLte (d - 7), NetCall.postTweet txt] :=
  main_calls_shape envPost

/-- Numeric value of a decimal digit character. -/
def digitVal (c : Char) : Nat := c.toNat - 48

/-- Value denoted by a list of decimal digits, least significant first. -/
def readNatRev : List Char → Nat
  | [] => 0
  | c :: rest => digitVal c + 10 * readNatRev rest

/-- Drop the thousands separators (list least significant first). -/
def noCommaRev (l : List Char) : List Char := l.filter (fun c => c != ',')

/-- Well-formed comma grouping of a digit string, read least significant
first: groups of exactly three digits separated by commas, the last group
holding one to three digits, no leading or trailing separator. -/
inductive GroupedRev : List Char → Prop where
  | small (l : List Char) (h1 : l ≠ []) (h2 : l.length ≤ 3)
      (h3 : ∀ c ∈ l, c.isDigit = true) : GroupedRev l
  | group (a b c : Char) (rest : List Char) (ha : a.isDigit = true)
      (hb : b.isDigit = true) (hc : c.isDigit = true) (hr : GroupedRev rest) :
      GroupedRev (a :: b :: c :: ',' :: rest)

theorem digitChar_isDigit : ∀ m, m < 10 → (Nat.digitChar m).isDigit = true := by
  decide

theorem digitVal_digitChar : ∀ m, m < 10 → digitVal (Nat.digitChar m) = m := by
  decide

theorem digit_ne_comma {c : Char} (h : c.isDigit = true) : (c != ',') = true := by
  by_cases hc : c = ','
  · subst hc
    exact absurd h (by decide)
  · simpa using hc

theorem natDigitsRev_ne_nil (n : Nat) : natDigitsRev n ≠ [] := by
  unfold natDigitsRev
  split <;> simp

theorem natDigitsRev_digits : ∀ n, ∀ c ∈ natDigitsRev n, c.isDigit = true := by
  intro n
  induction n using natDigitsRev.induct with
  | case1 n h =>
    intro c hc
    unfold natDigitsRev at hc
    rw [dif_pos h] at hc
    simp at hc
    subst hc
    exact digitChar_isDigit n h
  | case2 n h ih =>
    intro c hc
    unfold natDigitsRev at hc
    rw [dif_neg h] at hc
    rcases List.mem_cons.mp hc with rfl | hc
    · exact digitChar_isDigit _ (Nat.mod_lt _ (by omega))
    · exact ih c hc

theorem readNatRev_natDigitsRev : ∀ n, readNatRev (natDigitsRev n) = n := by
  intro n
  induction n using natDigitsRev.induct with
  | case1 n h =>
    unfold natDigitsRev
    rw [dif_pos h]
    simp [readNatRev, digitVal_digitChar n h]
  | case2 n h ih =>
    unfold natDigitsRev
    rw [dif_neg h]
    simp only [readNatRev, ih, digitVal_digitChar (n % 10) (Nat.mod_lt _ (by omega))]
    omega

theorem groupRev_grouped : ∀ l : List Char, l ≠ [] → (∀ c ∈ l, c.isDigit = true) →
    GroupedRev (groupRev l) := by
  intro l
  induction l using groupRev.induct with
  | case1 =>
    intro h _
    exact absurd rfl h
  | case2 a =>
    intro _ hd
    exact GroupedRev.small [a] (by simp) (by simp) hd
  | case3 a b =>
    intro _ hd
    exact GroupedRev.small [a, b] (by simp) (by simp) hd
  | case4 a b c =>
    intro _ hd
    exact GroupedRev.small [a, b, c] (by simp) (by simp) hd
  | case5 a b c d rest ih =>
    intro _ hd
    have hrest : ∀ x ∈ d :: rest, x.isDigit = true := fun x hx =>
      hd x (List.mem_cons_of_mem _ (List.mem_cons_of_mem _ (List.mem_cons_of_mem _ hx)))
    exact GroupedRev.group a b c (groupRev (d :: rest))
      (hd a (by simp)) (hd b (by simp)) (hd c (by simp))
      (ih (by simp) hrest)

theorem filter_digits (l : List Char) (hd : ∀ c ∈ l, c.isDigit = true) :
    l.filter (fun c => c != ',') = l :=
  List.filter_eq_self.mpr (fun c hc => digit_ne_comma (hd c hc))

theorem filter_groupRev : ∀ l : List Char, (∀ c ∈ l, c.isDigit = true) →
    (groupRev l).filter (fun c => c != ',') = l := by
  intro l
  induction l using groupRev.induct with
  | case1 => intro _; rfl
  | case2 a => intro hd; exact filter_digits [a] hd
  | case3 a b => intro hd; exact filter_digits [a, b] hd
  | case4 a b c => intro hd; exact filter_digits [a, b, c] hd
  | case5 a b c d rest ih =>
    intro hd
    have hrest : ∀ x ∈ d :: rest, x.isDigit = true := fun x hx =>
      hd x (List.mem_cons_of_mem _ (List.mem_cons_of_mem _ (List.mem_cons_of_mem _ hx)))
    show (a :: b :: c :: ',' :: groupRev (d :: rest)).filter (fun x => x != ',') =
      a :: b :: c :: d :: rest
    simp only [List.filter_cons, digit_ne_comma (hd a (by simp)),
      digit_ne_comma (hd b (by simp)), digit_ne_comma (hd c (by simp)),
      bne_self_eq_false, if_true, if_false, ih hrest]
    simp

theorem pad2_spec : ∀ m, m < 100 →
    (pad2 m).data.length = 2 ∧ (∀ c ∈ (pad2 m).data, c.isDigit = true) ∧
      readNatRev (pad2 m).data.reverse = m := by
  decide

theorem empty_append_str (s : String) : "" ++ s = s := by
  apply String.ext
  rw [String.data_append]
  rfl

/-- C7: for every delta, `format_billions` produces an explicit sign
character, `+` exactly when the delta is at least zero (so a zero delta is
rendered with `+`) and `-` exactly when it is negative, followed by a
dollar sign, the absolute value of the delta scaled to billions rendered
with thousands separators and exactly two decimal places, and the suffix
`" B"`: the integer part is a well-grouped digit string and, together with
the two decimal digits, denotes the rounding of the scaled absolute
value. -/
theorem format_billions_spec (delta : Rat) :
    ∃ sgn ip fp : String,
      format_billions delta = sgn ++ "$" ++ ip ++ "." ++ fp ++ " B" ∧
      (sgn = "+" ↔ 0 ≤ delta) ∧ (sgn = "-" ↔ delta < 0) ∧
      fp.data.length = 2 ∧ (∀ c ∈ fp.data, c.isDigit = true) ∧
      GroupedRev ip.data.reverse ∧
      readNatRev (noCommaRev ip.data.reverse) * 100 + readNatRev fp.data.reverse =
        (roundHalfEven (abs delta / 1000000000 * 100)).natAbs := by
  have habs : abs (billions delta) = abs delta / 1000000000 := by
    rw [billions, abs_div]
    norm_num
  set N : Nat := (roundHalfEven (abs delta / 1000000000 * 100)).natAbs with hN
  have hq0 : ¬(abs delta / 1000000000 < 0) := not_lt.mpr (by positivity)
  refine ⟨if delta ≥ 0 then "+" else "-", formatComma (N / 100), pad2 (N % 100),
    ?_, ?_, ?_, ?_, ?_, ?_, ?_⟩
  · simp only [format_billions, format2, habs, hN]
    rw [if_neg hq0]
    simp [String.append_assoc, empty_append_str]
  · by_cases h : delta ≥ 0
    · simp [h]
    · rw [if_neg h]
      constructor
      · intro hc
        exact absurd hc (by decide)
      · intro hc
        exact absurd hc h
  · by_cases h : delta ≥ 0
    · rw [if_pos h]
      constructor
      · intro hc
        exact absurd hc (by decide)
      · intro hc
        exact absurd hc (not_lt.mpr h)
    · rw [if_neg h]
      simp [lt_of_not_ge h]
  · exact (pad2_spec (N % 100) (Nat.mod_lt _ (by omega))).1
  · exact (pad2_spec (N % 100) (Nat.mod_lt _ (by omega))).2.1
  · have hip : (formatComma (N / 100)).data.reverse = groupRev (natDigitsRev (N / 100)) := by
      simp [formatComma]
    rw [hip]
    exact groupRev_grouped _ (natDigitsRev_ne_nil _) (natDigitsRev_digits _)
  · have hip : (formatComma (N / 100)).data.reverse = groupRev (natDigitsRev (N / 100)) := by
      simp [formatComma]
    rw [hip]
    have hnc : noCommaRev (groupRev (natDigitsRev (N / 100))) = natDigitsRev (N / 100) :=
      filter_groupRev _ (natDigitsRev_digits _)
    rw [hnc, readNatRev_natDigitsRev,
      (pad2_spec (N % 100) (Nat.mod_lt _ (by omega))).2.2]
    omega

/-- Witness for C7 at a zero delta: the sign is `+`. -/
theorem format_billions_spec_witness :
    ∃ sgn ip fp : String,
      format_billions 0 = sgn ++ "$" ++ ip ++ "." ++ fp ++ " B" ∧
      (sgn = "+" ↔ (0 : Rat) ≤ 0) ∧ (sgn = "-" ↔ (0 : Rat) < 0) ∧
      fp.data.length = 2 ∧ (∀ c ∈ fp.data, c.isDigit = true) ∧
      GroupedRev ip.data.reverse ∧
      readNatRev (noCommaRev ip.data.reverse) * 100 + readNatRev fp.data.reverse =
        (roundHalfEven (abs (0 : Rat) / 1000000000 * 100)).natAbs :=
  format_billions_spec 0

end USDebtLive
